import Mathlib

/-!
# Verification of the vernixdb JSON document store (src/src/index.js)

Shallow embedding of the storage engine: collections of schema-less
documents persisted in a single file, a query matcher, sort/pagination,
and the mutex-guarded operation cycle.  Documents and databases are
modelled as ordered association lists, mirroring JavaScript object key
order.  Machine-level aspects that the claims depend on are modelled
explicitly and documented at each definition.
-/

namespace VernixDB

/-- A JSON-like field value.  `vObj` is a structured (nested mapping) value.
JavaScript numbers are modelled as integers (no claim involves fractional
values); `undefined` is modelled as absence (`Option.none`) at use sites. -/
inductive Value where
  | vNull : Value
  | vBool : Bool → Value
  | vInt : Int → Value
  | vStr : String → Value
  | vObj : List (String × Value) → Value

/-- A document (or query / patch object): an ordered association list of
fields, mirroring JavaScript object insertion order.  Objects produced by
`JSON.parse` and by object literals have unique keys. -/
abbrev Document := List (String × Value)

/-- First-occurrence lookup in an association list; `none` models reading an
absent property (`undefined`). -/
def assocGet {β : Type} (l : List (String × β)) (k : String) : Option β :=
  (l.find? (fun p => p.1 == k)).map (fun p => p.2)

/-- JavaScript property assignment `o[k] = v`: replaces the value in place if
the key is present (object keys are unique, so replacing the first
occurrence is exact), otherwise appends the key at the end. -/
def assocSet {β : Type} : List (String × β) → String → β → List (String × β)
  | [], k, v => [(k, v)]
  | p :: rest, k, v => if p.1 == k then (k, v) :: rest else p :: assocSet rest k v

/-- JavaScript `delete o[k]` (also used to model a field set to `undefined`,
which disappears on JSON serialization). -/
def assocDel {β : Type} (l : List (String × β)) (k : String) : List (String × β) :=
  l.filter (fun p => p.1 != k)

/-- `doc[k]` on a document. -/
def getField (doc : Document) (k : String) : Option Value :=
  assocGet doc k

/-- Object spread `{...doc, ...patch}`: fields of `patch` assigned onto `doc`
left to right. -/
def objMerge (doc patch : Document) : Document :=
  patch.foldl (fun acc p => assocSet acc p.1 p.2) doc

/-- Scalar (primitive) values, for which JavaScript strict equality `===`
compares by value. -/
def Value.isScalar : Value → Bool
  | .vNull => true
  | .vBool _ => true
  | .vInt _ => true
  | .vStr _ => true
  | .vObj _ => false

/-- JavaScript strict equality `===` as the matcher observes it
(src/src/index.js line 316, `doc[key] !== value`): primitives compare by
type and value with no coercion; two structured values compare by object
identity, and the matcher always compares a field of a freshly parsed
document against a caller-supplied query value, which can never be the
same object, so the structured/structured case is `false`. -/
def jsStrictEq : Value → Value → Bool
  | .vNull, .vNull => true
  | .vBool a, .vBool b => a == b
  | .vInt a, .vInt b => a == b
  | .vStr a, .vStr b => a == b
  | _, _ => false

/-- `_matchesQuery(doc, query)` (src/src/index.js lines 312–321): true when
the query is empty, otherwise every `(key, value)` entry must satisfy
`doc[key] === value`; a document lacking `key` yields `undefined`, which is
strictly unequal to every query value. -/
def matchesQuery (doc : Document) (query : Document) : Bool :=
  if query.isEmpty then true
  else query.all (fun p =>
    match getField doc p.1 with
    | some w => jsStrictEq w p.2
    | none => false)

/-- JavaScript `ToNumber` on a field value, `none` standing for `NaN`:
`undefined → NaN`, `null → 0`, booleans to 0/1, strings via numeric
parsing (empty/whitespace → 0, non-numeric → NaN), structured values via
`ToPrimitive` to a non-numeric string → NaN. -/
def toNumber : Option Value → Option Int
  | none => none
  | some .vNull => some 0
  | some (.vBool b) => some (if b then 1 else 0)
  | some (.vInt n) => some n
  | some (.vStr s) => if s.trim = "" then some 0 else s.trim.toInt?
  | some (.vObj _) => none

/-- JavaScript relational `<` on two property reads: both strings compare
lexicographically, otherwise both sides go through `ToNumber` and any `NaN`
makes the comparison `false`. -/
def jsLt (a b : Option Value) : Bool :=
  match a, b with
  | some (.vStr x), some (.vStr y) => decide (x < y)
  | _, _ =>
    match toNumber a, toNumber b with
    | some m, some n => decide (m < n)
    | _, _ => false

/-- The comparator built by `_sortDocuments` (src/src/index.js lines
324–330): walk the sort specification's fields in order; `a[key] < b[key]`
decides per the direction (`1` = ascending), `a[key] > b[key]` the other
way, and otherwise the next field is consulted; exhausting the fields
returns 0 (a tie). -/
def compareDocs (sortSpec : List (String × Int)) (a b : Document) : Int :=
  match sortSpec with
  | [] => 0
  | (k, dir) :: rest =>
    if jsLt (getField a k) (getField b k) then (if dir = 1 then -1 else 1)
    else if jsLt (getField b k) (getField a k) then (if dir = 1 then 1 else -1)
    else compareDocs rest a b

/-- Insert `x` into an already-sorted list, after every element that does not
compare strictly greater than `x` — the insertion step of a stable sort. -/
def insertSorted {α : Type} (cmp : α → α → Int) (x : α) : List α → List α
  | [] => [x]
  | y :: rest => if cmp x y < 0 then x :: y :: rest else y :: insertSorted cmp x rest

/-- Stable comparator sort: the contract of `Array.prototype.sort`
(required stable by the language specification), modelled as insertion
sort, which preserves the original relative order of elements the
comparator ties. -/
def stableSortBy {α : Type} (cmp : α → α → Int) (l : List α) : List α :=
  l.foldl (fun acc x => insertSorted cmp x acc) []

/-- `_sortDocuments(documents, sort)` (src/src/index.js lines 323–331). -/
def sortDocuments (docs : List Document) (sortSpec : List (String × Int)) : List Document :=
  stableSortBy (compareDocs sortSpec) docs

/-- The parsed content of the backing file: an ordered mapping from
collection name to its ordered sequence of documents. -/
structure Database where
  colls : List (String × List Document)

/-- `db[collectionName]` (collection values are arrays, which are always
truthy in JavaScript — even when empty — so presence is what the source's
truthiness tests observe). -/
def getColl (db : Database) (name : String) : Option (List Document) :=
  assocGet db.colls name

/-- `db[collectionName] = docs`. -/
def setColl (db : Database) (name : String) (docs : List Document) : Database :=
  ⟨assocSet db.colls name docs⟩

/-- `delete db[collectionName]`. -/
def delColl (db : Database) (name : String) : Database :=
  ⟨assocDel db.colls name⟩

/-- Engine state: the `initialized` flag plus the persisted file content.
The file is modelled already parsed; the serialization round-trip and the
filesystem are the spec's external collaborators.  I/O and parse failures
(`ReadError`/`WriteError`/`CorruptedDatabase`) are failures of those
collaborators and are outside this model, which covers the engine's own
control flow. -/
structure EngineState where
  initialized : Bool
  file : Database

/-- The error kinds of `DatabaseError` that the modelled engine paths
raise. -/
inductive DBError where
  | notInitialized
  | invalidInput
  | collectionExists
  | collectionNotFound
  | documentNotFound
deriving DecidableEq

/-- `_readDatabase()` (src/src/index.js lines 37–55): guarded by the
`initialized` flag, then returns the parsed file content. -/
def readDatabase (s : EngineState) : Except DBError Database :=
  if s.initialized then .ok s.file else .error .notInitialized

/-- `_writeDatabase(data)` (src/src/index.js lines 57–71): guarded by the
`initialized` flag, then replaces the file content as a whole. -/
def writeDatabase (s : EngineState) (db : Database) : Except DBError EngineState :=
  if s.initialized then .ok { s with file := db } else .error .notInitialized

/-- `close()` (src/src/index.js lines 297–300). -/
def close (s : EngineState) : EngineState :=
  { s with initialized := false }

/-- The character set removed by JavaScript `String.prototype.trim`
(ECMA-262 TrimString): WhiteSpace — TAB U+0009, VT U+000B, FF U+000C,
SP U+0020, NBSP U+00A0, ZWNBSP/BOM U+FEFF and the Unicode Zs category
(U+1680, U+2000–U+200A, U+202F, U+205F, U+3000) — together with the
LineTerminators LF U+000A, CR U+000D, LS U+2028 and PS U+2029. -/
def jsWhitespace (c : Char) : Bool :=
  [0x09, 0x0A, 0x0B, 0x0C, 0x0D, 0x20, 0xA0, 0x1680,
   0x2000, 0x2001, 0x2002, 0x2003, 0x2004, 0x2005, 0x2006, 0x2007,
   0x2008, 0x2009, 0x200A, 0x2028, 0x2029, 0x202F, 0x205F, 0x3000,
   0xFEFF].contains c.toNat

/-- The name validity test of `createCollection` (src/src/index.js line
75): `!collectionName.trim()` holds exactly when the name trims to the
empty string, i.e. when every character is JavaScript whitespace. -/
def nameBlank (s : String) : Bool :=
  s.toList.all jsWhitespace

/-- `createCollection(collectionName)` (src/src/index.js lines 73–93).  The
name validity test precedes the `_readDatabase` call; the non-string case
of `typeof collectionName !== 'string'` is outside a `String`-typed model,
the empty-after-trim case is kept. -/
def createCollection (name : String) (s : EngineState) :
    Except DBError Unit × EngineState :=
  if nameBlank name then (.error .invalidInput, s)
  else
    match readDatabase s with
    | .error e => (.error e, s)
    | .ok db =>
      match getColl db name with
      | some _ => (.error .collectionExists, s)
      | none =>
        match writeDatabase s (setColl db name []) with
        | .error e => (.error e, s)
        | .ok s' => (.ok (), s')

/-- The reserved-field stamping of one inserted document
(src/src/index.js lines 112–117): `{...doc, _id, _createdAt, _updatedAt}`,
engine-assigned values overwriting any caller-supplied ones. -/
def withMetadata (doc : Document) (idStr : String) (ts : String) : Document :=
  assocSet (assocSet (assocSet doc "_id" (.vStr idStr)) "_createdAt" (.vStr ts))
    "_updatedAt" (.vStr ts)

/-- Result of `insert`. -/
structure InsertResult where
  insertedCount : Nat
  insertedIds : List String
deriving DecidableEq

/-- `insert(collectionName, documents)` (src/src/index.js lines 95–131).
The caller's single-document form is already normalized to a list; the
emptiness test precedes the `_readDatabase` call.  `gen i` is the value of
the `i`-th `_generateId()` call and `ts` the one timestamp captured for
the batch — both are opaque inputs here, the generator being
nondeterministic in the source. -/
def insert (collName : String) (docs : List Document) (gen : Nat → String)
    (ts : String) (s : EngineState) : Except DBError InsertResult × EngineState :=
  if docs.isEmpty then (.error .invalidInput, s)
  else
    match readDatabase s with
    | .error e => (.error e, s)
    | .ok db =>
      match getColl db collName with
      | none => (.error .collectionNotFound, s)
      | some existing =>
        let newDocs := docs.enum.map (fun p => withMetadata p.2 (gen p.1) ts)
        match writeDatabase s (setColl db collName (existing ++ newDocs)) with
        | .error e => (.error e, s)
        | .ok s' => (.ok ⟨newDocs.length, docs.enum.map (fun p => gen p.1)⟩, s')

/-- The `options` object of `find`: `sort` is a field/direction mapping,
`skip`/`limit` are numbers; absence models a missing property.  Negative
numbers are not modelled (`Array.prototype.slice` reinterprets them from
the end; no claim involves them). -/
structure FindOptions where
  sort : Option (List (String × Int)) := none
  skip : Option Nat := none
  limit : Option Nat := none

/-- `find(collectionName, query, options)` (src/src/index.js lines
133–161): filter by the matcher, sort when `options.sort` is truthy (any
present object is), and slice to `[skip, skip + limit)` only when
`options.limit` is truthy — a present limit of `0` is falsy, and
`options.skip || 0` defaults a missing (or zero) skip to 0. -/
def findPipeline (docs : List Document) (query : Document) (opts : FindOptions) :
    List Document :=
  let results := docs.filter (fun d => matchesQuery d query)
  let results :=
    match opts.sort with
    | some sortSpec => sortDocuments results sortSpec
    | none => results
  match opts.limit with
  | some l => if l ≠ 0 then (results.drop (opts.skip.getD 0)).take l else results
  | none => results

/-- `find` proper: read, check the collection, run the pipeline; no write. -/
def find (collName : String) (query : Document) (opts : FindOptions)
    (s : EngineState) : Except DBError (List Document) × EngineState :=
  match readDatabase s with
  | .error e => (.error e, s)
  | .ok db =>
    match getColl db collName with
    | none => (.error .collectionNotFound, s)
    | some docs => (.ok (findPipeline docs query opts), s)

/-- `findOne(collectionName, query)` (src/src/index.js lines 163–175):
`find` with limit 1, `result.data[0] || null` becoming `head?`. -/
def findOne (collName : String) (query : Document) (s : EngineState) :
    Except DBError (Option Document) × EngineState :=
  match find collName query { limit := some 1 } s with
  | (.error e, s') => (.error e, s')
  | (.ok results, s') => (.ok results.head?, s')

/-- `count(collectionName, query)` (src/src/index.js lines 289–295). -/
def count (collName : String) (query : Document) (s : EngineState) :
    Except DBError Nat × EngineState :=
  match find collName query {} s with
  | (.error e, s') => (.error e, s')
  | (.ok results, s') => (.ok results.length, s')

/-- Per-collection entry of `getStats()`.  The `size` field of the source
is the byte length of the collection's serialized form; serialization is
an external collaborator (spec §1) and the size value appears in no
claim, so only the document count is modelled. -/
structure CollStats where
  documentCount : Nat
deriving DecidableEq

/-- Result of `getStats()`. -/
structure Stats where
  collections : List (String × CollStats)
  totalCollections : Nat

/-- `getStats()` (src/src/index.js lines 333–353). -/
def getStats (s : EngineState) : Except DBError Stats × EngineState :=
  match readDatabase s with
  | .error e => (.error e, s)
  | .ok db =>
    (.ok ⟨db.colls.map (fun p => (p.1, ⟨p.2.length⟩)), db.colls.length⟩, s)

/-- The `options` object of `update`. -/
structure UpdateOptions where
  multi : Bool := false
  upsert : Bool := false

/-- Result of `update`. -/
structure UpdateResult where
  matchedCount : Nat
  modifiedCount : Nat
deriving DecidableEq

/-- The merge applied to one matched document (src/src/index.js lines
192–197): `{...doc, ...update, _updatedAt: timestamp, _id: doc._id}` — the
patch overwrites document fields, `_updatedAt` is stamped, and the
original `_id` is written back last.  When the document had no `_id`,
`doc._id` is `undefined` and the field disappears on serialization,
modelled as removal. -/
def applyPatch (doc patch : Document) (ts : String) : Document :=
  let merged := assocSet (objMerge doc patch) "_updatedAt" (.vStr ts)
  match getField doc "_id" with
  | some idv => assocSet merged "_id" idv
  | none => assocDel merged "_id"

/-- The collection scan of `update` (src/src/index.js lines 188–202): a
`map` over the collection closing over the running `updateCount`; a
matching document is rewritten when `multi` is set or no match has been
processed yet (`updateCount === 0`), every other document passes through
unchanged. -/
def updateDocsAux (query patch : Document) (multi : Bool) (ts : String) :
    List Document → Nat → List Document × Nat
  | [], n => ([], n)
  | d :: rest, n =>
    if matchesQuery d query && (multi || n == 0) then
      let (rest', n') := updateDocsAux query patch multi ts rest (n + 1)
      (applyPatch d patch ts :: rest', n')
    else
      let (rest', n') := updateDocsAux query patch multi ts rest n
      (d :: rest', n')

/-- `update(collectionName, query, update, options)` (src/src/index.js
lines 177–219): scan-and-merge, then fail with `DOCUMENT_NOT_FOUND` when
nothing matched and `upsert` is not set (before any write), else commit
and report `matchedCount = modifiedCount = updateCount`. -/
def update (collName : String) (query patch : Document) (opts : UpdateOptions)
    (ts : String) (s : EngineState) : Except DBError UpdateResult × EngineState :=
  match readDatabase s with
  | .error e => (.error e, s)
  | .ok db =>
    match getColl db collName with
    | none => (.error .collectionNotFound, s)
    | some docs =>
      let r := updateDocsAux query patch opts.multi ts docs 0
      if r.2 == 0 && !opts.upsert then (.error .documentNotFound, s)
      else
        match writeDatabase s (setColl db collName r.1) with
        | .error e => (.error e, s)
        | .ok s' => (.ok ⟨r.2, r.2⟩, s')

/-- The `options` object of `delete`; the source's body never reads it. -/
structure DeleteOptions where
  multi : Bool := false

/-- Result of `delete`. -/
structure DeleteResult where
  deletedCount : Nat
deriving DecidableEq

/-- `delete(collectionName, query, options)` (src/src/index.js lines
221–247): keep the non-matching documents, fail with `DOCUMENT_NOT_FOUND`
when nothing was removed (before any write), else commit and report the
count removed.  `options` is accepted and ignored, as in the source. -/
def delete (collName : String) (query : Document) (opts : DeleteOptions)
    (s : EngineState) : Except DBError DeleteResult × EngineState :=
  match readDatabase s with
  | .error e => (.error e, s)
  | .ok db =>
    match getColl db collName with
    | none => (.error .collectionNotFound, s)
    | some docs =>
      let kept := docs.filter (fun d => !matchesQuery d query)
      let deletedCount := docs.length - kept.length
      if deletedCount == 0 then (.error .documentNotFound, s)
      else
        match writeDatabase s (setColl db collName kept) with
        | .error e => (.error e, s)
        | .ok s' => (.ok ⟨deletedCount⟩, s')

/-- `dropCollection(collectionName)` (src/src/index.js lines 249–265). -/
def dropCollection (collName : String) (s : EngineState) :
    Except DBError Unit × EngineState :=
  match readDatabase s with
  | .error e => (.error e, s)
  | .ok db =>
    match getColl db collName with
    | none => (.error .collectionNotFound, s)
    | some _ =>
      match writeDatabase s (delColl db collName) with
      | .error e => (.error e, s)
      | .ok s' => (.ok (), s')

/-!
## Concurrency model for the read-modify-write cycle

In the source, the mutex is acquired and released *inside* `_readDatabase`
(src/src/index.js lines 42–54) and again, separately, inside
`_writeDatabase` (lines 62–70); no lock is held from an operation's read
to its write.  An in-flight `insert` therefore consists of two atomic
mutex-protected steps — the read, and the compute-plus-write — and the
mutex permits any interleaving of such steps across concurrent calls that
respects each call's own order.  An execution is a schedule: the sequence
of task indices in the order their steps win the mutex.
-/

/-- One concurrent single-document `insert` call: the target collection,
the caller's document, and the values its `_generateId()` and timestamp
capture produce. -/
structure InsTask where
  coll : String
  doc : Document
  idStr : String
  ts : String

/-- The progress of one in-flight `insert`: not yet read; read done,
holding the private snapshot the later write will be computed from;
finished. -/
inductive InsPhase where
  | ready : InsPhase
  | readDone : Database → InsPhase
  | finished : InsPhase

/-- One atomic mutex-protected step of an in-flight insert.  From `ready`,
the `_readDatabase` call snapshots the current file.  From `readDone`, the
task runs insert's in-memory body on its own snapshot (lines 107–119) and
its `_writeDatabase` call replaces the whole file with the result; a
missing collection aborts before the write.  A finished task leaves the
file alone. -/
def insStep (file : Database) (t : InsTask) (p : InsPhase) : Database × InsPhase :=
  match p with
  | .ready => (file, .readDone file)
  | .readDone snap =>
    match getColl snap t.coll with
    | none => (file, .finished)
    | some docs =>
      (setColl snap t.coll (docs ++ [withMetadata t.doc t.idStr t.ts]), .finished)
  | .finished => (file, .finished)

/-- Run a schedule: each entry names the task whose next atomic step the
mutex grants; out-of-range entries are skipped. -/
def runSchedule (tasks : List InsTask) :
    Database → List InsPhase → List Nat → Database × List InsPhase
  | file, phases, [] => (file, phases)
  | file, phases, i :: rest =>
    match tasks[i]?, phases[i]? with
    | some t, some p =>
      let (file', p') := insStep file t p
      runSchedule tasks file' (phases.set i p') rest
    | _, _ => runSchedule tasks file phases rest

/-- The arguments of one `update` call, for reasoning about sequences of
updates. -/
structure UpdateCall where
  coll : String
  query : Document
  patch : Document
  opts : UpdateOptions
  ts : String

/-- Run a sequence of `update` calls, threading the engine state. -/
def runUpdates (calls : List UpdateCall) (s : EngineState) : EngineState :=
  calls.foldl (fun st c => (update c.coll c.query c.patch c.opts c.ts st).2) s

/-!
## Association list lemmas
-/

@[simp]
theorem assocGet_nil {β : Type} (k : String) : assocGet ([] : List (String × β)) k = none := rfl

@[simp]
theorem assocGet_cons {β : Type} (p : String × β) (rest : List (String × β)) (k : String) :
    assocGet (p :: rest) k = if p.1 = k then some p.2 else assocGet rest k := by
  by_cases h : p.1 = k
  · simp [assocGet, List.find?, h]
  · have hb : (p.1 == k) = false := beq_eq_false_iff_ne.mpr h
    simp [assocGet, List.find?, hb, h]

theorem assocGet_assocSet {β : Type} (l : List (String × β)) (k : String) (v : β)
    (k' : String) :
    assocGet (assocSet l k v) k' = if k' = k then some v else assocGet l k' := by
  induction l with
  | nil =>
    by_cases h : k' = k
    · simp [assocSet, h]
    · have h2 : ¬k = k' := fun e => h e.symm
      simp [assocSet, h, h2]
  | cons p rest ih =>
    by_cases hp : p.1 = k
    · by_cases h : k' = k
      · simp [assocSet, hp, h]
      · have h2 : ¬k = k' := fun e => h e.symm
        have h3 : ¬p.1 = k' := fun e => h2 (hp ▸ e)
        simp [assocSet, hp, h, h2, h3]
    · by_cases h : k' = k
      · have h3 : ¬p.1 = k' := fun e => hp (e.trans h)
        subst h
        simp [assocSet, hp, h3, ih]
      · simp [assocSet, hp, h, ih]

theorem assocGet_assocDel {β : Type} (l : List (String × β)) (k k' : String) :
    assocGet (assocDel l k) k' = if k' = k then none else assocGet l k' := by
  induction l with
  | nil => by_cases h : k' = k <;> simp [assocDel, h]
  | cons p rest ih =>
    by_cases hp : p.1 = k
    · have hb : (p.1 != k) = false := by simp [hp]
      have step : assocDel (p :: rest) k = assocDel rest k := by
        simp [assocDel, List.filter_cons, hb]
      rw [step, ih]
      by_cases h : k' = k
      · simp [h]
      · have h3 : ¬p.1 = k' := fun e => h (e.symm.trans hp)
        simp [h, h3]
    · have hb : (p.1 != k) = true := by simp [hp]
      have step : assocDel (p :: rest) k = p :: assocDel rest k := by
        simp [assocDel, List.filter_cons, hb]
      rw [step, assocGet_cons, ih]
      by_cases h : k' = k
      · have h3 : ¬p.1 = k' := fun e => hp (e.trans h)
        simp [h, h3, hp]
      · simp [h]

theorem getField_objMerge_of_none (doc patch : Document) (k : String)
    (h : getField patch k = none) :
    getField (objMerge doc patch) k = getField doc k := by
  induction patch generalizing doc with
  | nil => rfl
  | cons p rest ih =>
    simp only [getField] at h ⊢
    rw [assocGet_cons] at h
    by_cases hp : p.1 = k
    · simp [hp] at h
    · simp only [hp, if_false] at h
      show assocGet (objMerge (assocSet doc p.1 p.2) rest) k = assocGet doc k
      have := ih (assocSet doc p.1 p.2) h
      simp only [getField] at this
      rw [this, assocGet_assocSet]
      have h2 : ¬k = p.1 := fun e => hp e.symm
      simp [h2]

theorem getField_objMerge_of_some (doc patch : Document) (k : String) (v : Value)
    (hnd : (patch.map Prod.fst).Nodup) (h : getField patch k = some v) :
    getField (objMerge doc patch) k = some v := by
  induction patch generalizing doc with
  | nil => simp [getField] at h
  | cons p rest ih =>
    simp only [getField] at h ⊢
    rw [assocGet_cons] at h
    simp only [List.map_cons, List.nodup_cons] at hnd
    by_cases hp : p.1 = k
    · simp only [hp, if_true] at h
      show assocGet (objMerge (assocSet doc p.1 p.2) rest) k = some v
      have hrest : getField rest k = none := by
        rcases hfind : rest.find? (fun q => q.1 == k) with _ | q
        · simp [getField, assocGet, hfind]
        · exfalso
          have hq := List.find?_some hfind
          have hqmem := List.mem_of_find?_eq_some hfind
          have : q.1 = k := by simpa using hq
          exact hnd.1 (hp ▸ this ▸ (List.mem_map_of_mem Prod.fst hqmem))
      have := getField_objMerge_of_none (assocSet doc p.1 p.2) rest k hrest
      simp only [getField] at this
      rw [this, assocGet_assocSet]
      simp [hp, h]
    · simp only [hp, if_false] at h
      exact ih (assocSet doc p.1 p.2) hnd.2 h

/-!
## Matcher and comparator lemmas
-/

theorem jsStrictEq_iff (w v : Value) :
    jsStrictEq w v = true ↔ w = v ∧ v.isScalar = true := by
  cases w <;> cases v <;> simp [jsStrictEq, Value.isScalar]

theorem matchesQuery_iff (doc query : Document) :
    matchesQuery doc query = true ↔
      ∀ p ∈ query, getField doc p.1 = some p.2 ∧ p.2.isScalar = true := by
  unfold matchesQuery
  by_cases hq : query.isEmpty
  · rw [List.isEmpty_iff] at hq
    simp [hq]
  · have hq' : query.isEmpty = false := Bool.not_eq_true _ ▸ eq_false_of_ne_true hq
    simp only [hq', Bool.false_eq_true, if_false, List.all_eq_true]
    constructor
    · intro h p hp
      have hm := h p hp
      cases hg : getField doc p.1 with
      | none => rw [hg] at hm; exact absurd hm (by simp)
      | some w =>
        rw [hg] at hm
        obtain ⟨hw, hs⟩ := (jsStrictEq_iff w p.2).mp hm
        exact ⟨by rw [hw], hs⟩
    · intro h p hp
      obtain ⟨hg, hs⟩ := h p hp
      rw [hg]
      exact (jsStrictEq_iff p.2 p.2).mpr ⟨rfl, hs⟩

theorem jsLt_none_left (b : Option Value) : jsLt none b = false := by
  cases b with
  | none => rfl
  | some v => cases v <;> rfl

theorem jsLt_none_right (a : Option Value) : jsLt a none = false := by
  cases a with
  | none => rfl
  | some v =>
    cases v with
    | vStr s =>
      show (match toNumber (some (.vStr s)), toNumber none with
        | some m, some n => decide (m < n)
        | _, _ => false) = false
      cases toNumber (some (.vStr s)) <;> rfl
    | vNull => rfl
    | vBool b => rfl
    | vInt n => rfl
    | vObj fs => rfl

/-- An absent sort field never decides a comparison: both relational tests
are `false` (`undefined` converts to `NaN`), so the comparator falls
through to the remaining sort fields. -/
theorem compareDocs_absent (k : String) (dir : Int) (rest : List (String × Int))
    (a b : Document) (h : getField a k = none ∨ getField b k = none) :
    compareDocs ((k, dir) :: rest) a b = compareDocs rest a b := by
  have hl : jsLt (getField a k) (getField b k) = false := by
    rcases h with h | h
    · rw [h]; exact jsLt_none_left _
    · rw [h]; exact jsLt_none_right _
  have hr : jsLt (getField b k) (getField a k) = false := by
    rcases h with h | h
    · rw [h]; exact jsLt_none_right _
    · rw [h]; exact jsLt_none_left _
  simp only [compareDocs, hl, hr, Bool.false_eq_true, if_false]

/-!
## Patch-merge lemmas
-/

theorem getField_applyPatch_id (doc patch : Document) (ts : String) :
    getField (applyPatch doc patch ts) "_id" = getField doc "_id" := by
  cases hid : getField doc "_id" with
  | some idv =>
    simp only [applyPatch, hid]
    rw [getField, assocGet_assocSet, if_pos rfl]
  | none =>
    simp only [applyPatch, hid]
    rw [getField, assocGet_assocDel, if_pos rfl]

theorem getField_applyPatch_updatedAt (doc patch : Document) (ts : String) :
    getField (applyPatch doc patch ts) "_updatedAt" = some (.vStr ts) := by
  have hne : "_updatedAt" ≠ "_id" := by decide
  cases hid : getField doc "_id" with
  | some idv =>
    simp only [applyPatch, hid]
    rw [getField, assocGet_assocSet, if_neg hne, assocGet_assocSet, if_pos rfl]
  | none =>
    simp only [applyPatch, hid]
    rw [getField, assocGet_assocDel, if_neg hne, assocGet_assocSet, if_pos rfl]

/-- On every field other than the stamped `_updatedAt` and the restored
`_id`, the merged document is exactly the spread `{...doc, ...patch}`. -/
theorem getField_applyPatch_other (doc patch : Document) (ts : String) (k : String)
    (hid : k ≠ "_id") (hup : k ≠ "_updatedAt") :
    getField (applyPatch doc patch ts) k = getField (objMerge doc patch) k := by
  cases h : getField doc "_id" with
  | some idv =>
    simp only [applyPatch, h]
    rw [getField, assocGet_assocSet, if_neg hid, assocGet_assocSet, if_neg hup]
    rfl
  | none =>
    simp only [applyPatch, h]
    rw [getField, assocGet_assocDel, if_neg hid, assocGet_assocSet, if_neg hup]
    rfl

theorem getField_applyPatch_createdAt (doc patch : Document) (ts : String)
    (h : getField patch "_createdAt" = none) :
    getField (applyPatch doc patch ts) "_createdAt" = getField doc "_createdAt" := by
  rw [getField_applyPatch_other doc patch ts "_createdAt" (by decide) (by decide)]
  exact getField_objMerge_of_none doc patch "_createdAt" h

/-!
## Update-scan lemmas
-/

theorem updateDocsAux_nomatch (query patch : Document) (multi : Bool) (ts : String)
    (docs : List Document) (n : Nat) (h : ∀ d ∈ docs, matchesQuery d query = false) :
    updateDocsAux query patch multi ts docs n = (docs, n) := by
  induction docs generalizing n with
  | nil => rfl
  | cons d rest ih =>
    have hd := h d (List.mem_cons_self d rest)
    simp only [updateDocsAux, hd, Bool.false_and, Bool.false_eq_true, if_false]
    rw [ih n (fun x hx => h x (List.mem_cons_of_mem d hx))]

theorem updateDocsAux_stuck (query patch : Document) (ts : String)
    (docs : List Document) (n : Nat) (hn : n ≠ 0) :
    updateDocsAux query patch false ts docs n = (docs, n) := by
  induction docs generalizing n with
  | nil => rfl
  | cons d rest ih =>
    have hb : (n == 0) = false := by simpa using hn
    simp only [updateDocsAux, hb, Bool.false_or, Bool.and_false, Bool.false_eq_true,
      if_false]
    rw [ih n hn]

theorem updateDocsAux_first (query patch : Document) (ts : String)
    (pre : List Document) (d : Document) (post : List Document)
    (hpre : ∀ x ∈ pre, matchesQuery x query = false)
    (hd : matchesQuery d query = true) :
    updateDocsAux query patch false ts (pre ++ d :: post) 0 =
      (pre ++ applyPatch d patch ts :: post, 1) := by
  induction pre with
  | nil =>
    simp only [List.nil_append, updateDocsAux, hd, Bool.true_and, Bool.false_or,
      beq_self_eq_true, if_true]
    rw [updateDocsAux_stuck query patch ts post 1 one_ne_zero]
  | cons x rest ih =>
    have hx := hpre x (List.mem_cons_self x rest)
    simp only [List.cons_append, updateDocsAux, hx, Bool.false_and, Bool.false_eq_true,
      if_false, List.append_eq]
    rw [ih (fun y hy => hpre y (List.mem_cons_of_mem x hy))]

theorem updateDocsAux_multi (query patch : Document) (ts : String)
    (docs : List Document) (n : Nat) :
    updateDocsAux query patch true ts docs n =
      (docs.map (fun d => if matchesQuery d query then applyPatch d patch ts else d),
       n + docs.countP (fun d => matchesQuery d query)) := by
  induction docs generalizing n with
  | nil => simp [updateDocsAux]
  | cons d rest ih =>
    by_cases hd : matchesQuery d query = true
    · simp only [updateDocsAux, hd, Bool.true_and, Bool.true_or, Bool.and_true, if_true,
        ih (n + 1), List.map_cons, List.countP_cons, if_pos]
      simp only [Prod.mk.injEq, hd, if_true]
      exact ⟨trivial, by omega⟩
    · have hd' : matchesQuery d query = false := Bool.not_eq_true _ ▸ eq_false_of_ne_true hd
      simp only [updateDocsAux, hd', Bool.false_and, Bool.false_eq_true, if_false,
        ih n, List.map_cons, List.countP_cons]
      simp only [Prod.mk.injEq, hd', Bool.false_eq_true, if_false]
      exact ⟨trivial, by omega⟩

theorem updateDocsAux_rel (query patch : Document) (multi : Bool) (ts : String)
    (docs : List Document) (n : Nat) :
    List.Forall₂ (fun d d' => d' = d ∨ d' = applyPatch d patch ts) docs
      (updateDocsAux query patch multi ts docs n).1 := by
  induction docs generalizing n with
  | nil => exact List.Forall₂.nil
  | cons d rest ih =>
    unfold updateDocsAux
    by_cases hc : (matchesQuery d query && (multi || n == 0)) = true
    · simp only [hc, if_true]
      exact List.Forall₂.cons (Or.inr rfl) (ih (n + 1))
    · have hc' := Bool.not_eq_true _ ▸ eq_false_of_ne_true hc
      simp only [hc', Bool.false_eq_true, if_false]
      exact List.Forall₂.cons (Or.inl rfl) (ih n)

/-!
## Operation reduction and frame lemmas
-/

theorem find_eq (coll : String) (query : Document) (opts : FindOptions)
    (docs : List Document) (s : EngineState) (hinit : s.initialized = true)
    (hcoll : getColl s.file coll = some docs) :
    find coll query opts s = (.ok (findPipeline docs query opts), s) := by
  simp [find, readDatabase, hinit, hcoll]

theorem update_eq (coll : String) (query patch : Document) (opts : UpdateOptions)
    (ts : String) (docs : List Document) (s : EngineState)
    (hinit : s.initialized = true) (hcoll : getColl s.file coll = some docs) :
    update coll query patch opts ts s =
      (let r := updateDocsAux query patch opts.multi ts docs 0
       if r.2 == 0 && !opts.upsert then (.error .documentNotFound, s)
       else (.ok ⟨r.2, r.2⟩, { s with file := setColl s.file coll r.1 })) := by
  simp only [update, readDatabase, hinit, if_true, hcoll, writeDatabase]

theorem delete_eq (coll : String) (query : Document) (opts : DeleteOptions)
    (docs : List Document) (s : EngineState)
    (hinit : s.initialized = true) (hcoll : getColl s.file coll = some docs) :
    delete coll query opts s =
      (let kept := docs.filter (fun d => !matchesQuery d query)
       if docs.length - kept.length == 0 then (.error .documentNotFound, s)
       else (.ok ⟨docs.length - kept.length⟩,
             { s with file := setColl s.file coll kept })) := by
  simp only [delete, readDatabase, hinit, if_true, hcoll, writeDatabase]

theorem find_snd (c : String) (q : Document) (o : FindOptions) (s : EngineState) :
    (find c q o s).2 = s := by
  unfold find
  cases h : readDatabase s with
  | error e => rfl
  | ok db => cases hc : getColl db c <;> simp [hc]

theorem findOne_snd (c : String) (q : Document) (s : EngineState) :
    (findOne c q s).2 = s := by
  have hs := find_snd c q { limit := some 1 } s
  unfold findOne
  cases h : find c q { limit := some 1 } s with
  | mk fst snd =>
    rw [h] at hs
    cases fst <;> simpa using hs

theorem count_snd (c : String) (q : Document) (s : EngineState) :
    (count c q s).2 = s := by
  have hs := find_snd c q {} s
  unfold count
  cases h : find c q {} s with
  | mk fst snd =>
    rw [h] at hs
    cases fst <;> simpa using hs

theorem getStats_snd (s : EngineState) : (getStats s).2 = s := by
  unfold getStats
  cases h : readDatabase s <;> rfl

theorem forall₂_compose {α : Type} {R S T : α → α → Prop} :
    ∀ {l1 l2 l3 : List α}, List.Forall₂ R l1 l2 → List.Forall₂ S l2 l3 →
      (∀ a b c, R a b → S b c → T a c) → List.Forall₂ T l1 l3 := by
  intro l1 l2 l3 h1 h2 h
  induction h1 generalizing l3 with
  | nil => cases h2; exact List.Forall₂.nil
  | cons hr _ ih =>
    cases h2 with
    | cons hs htail => exact List.Forall₂.cons (h _ _ _ hr hs) (ih htail)

/-!
## Behaviour on an uninitialized engine
-/

theorem createCollection_not_initialized (name : String) (s : EngineState)
    (h : s.initialized = false) (hname : nameBlank name = false) :
    createCollection name s = (.error .notInitialized, s) := by
  simp [createCollection, readDatabase, h, hname]

theorem insert_not_initialized (coll : String) (docs : List Document)
    (gen : Nat → String) (ts : String) (s : EngineState)
    (h : s.initialized = false) (hdocs : docs ≠ []) :
    insert coll docs gen ts s = (.error .notInitialized, s) := by
  have hd : docs.isEmpty = false := by simpa using hdocs
  simp [insert, readDatabase, h, hd]

theorem find_not_initialized (coll : String) (query : Document) (opts : FindOptions)
    (s : EngineState) (h : s.initialized = false) :
    find coll query opts s = (.error .notInitialized, s) := by
  simp [find, readDatabase, h]

theorem findOne_not_initialized (coll : String) (query : Document)
    (s : EngineState) (h : s.initialized = false) :
    findOne coll query s = (.error .notInitialized, s) := by
  simp [findOne, find_not_initialized coll query { limit := some 1 } s h]

theorem count_not_initialized (coll : String) (query : Document)
    (s : EngineState) (h : s.initialized = false) :
    count coll query s = (.error .notInitialized, s) := by
  simp [count, find_not_initialized coll query {} s h]

theorem update_not_initialized (coll : String) (query patch : Document)
    (opts : UpdateOptions) (ts : String) (s : EngineState)
    (h : s.initialized = false) :
    update coll query patch opts ts s = (.error .notInitialized, s) := by
  simp [update, readDatabase, h]

theorem delete_not_initialized (coll : String) (query : Document)
    (opts : DeleteOptions) (s : EngineState) (h : s.initialized = false) :
    delete coll query opts s = (.error .notInitialized, s) := by
  simp [delete, readDatabase, h]

theorem dropCollection_not_initialized (coll : String) (s : EngineState)
    (h : s.initialized = false) :
    dropCollection coll s = (.error .notInitialized, s) := by
  simp [dropCollection, readDatabase, h]

theorem getStats_not_initialized (s : EngineState) (h : s.initialized = false) :
    getStats s = (.error .notInitialized, s) := by
  simp [getStats, readDatabase, h]

/-!
## Per-collection effect of one update call
-/

theorem update_call_preserves (coll : String) (query patch : Document)
    (opts : UpdateOptions) (ts : String) (s : EngineState) (c : String)
    (docs : List Document) (hdocs : getColl s.file c = some docs) :
    ∃ docs', getColl (update coll query patch opts ts s).2.file c = some docs' ∧
      List.Forall₂ (fun d d' => d' = d ∨ d' = applyPatch d patch ts) docs docs' := by
  cases hinit : s.initialized with
  | false =>
    rw [update_not_initialized coll query patch opts ts s hinit]
    exact ⟨docs, hdocs, List.forall₂_same.mpr (fun d _ => Or.inl rfl)⟩
  | true =>
    cases hc : getColl s.file coll with
    | none =>
      have : update coll query patch opts ts s = (.error .collectionNotFound, s) := by
        simp [update, readDatabase, hinit, hc]
      rw [this]
      exact ⟨docs, hdocs, List.forall₂_same.mpr (fun d _ => Or.inl rfl)⟩
    | some tdocs =>
      rw [update_eq coll query patch opts ts tdocs s hinit hc]
      by_cases hz : ((updateDocsAux query patch opts.multi ts tdocs 0).2 == 0
          && !opts.upsert) = true
      · simp only [hz, if_true]
        exact ⟨docs, hdocs, List.forall₂_same.mpr (fun d _ => Or.inl rfl)⟩
      · have hz' := Bool.not_eq_true _ ▸ eq_false_of_ne_true hz
        simp only [hz', Bool.false_eq_true, if_false]
        by_cases hcc : c = coll
        · subst hcc
          have heq : tdocs = docs := by rw [hdocs] at hc; exact (Option.some.injEq _ _ ▸ hc).symm
          subst heq
          refine ⟨(updateDocsAux query patch opts.multi ts tdocs 0).1, ?_, ?_⟩
          · show assocGet (assocSet s.file.colls c _) c = _
            rw [assocGet_assocSet, if_pos rfl]
          · exact updateDocsAux_rel query patch opts.multi ts tdocs 0
        · refine ⟨docs, ?_, List.forall₂_same.mpr (fun d _ => Or.inl rfl)⟩
          show assocGet (assocSet s.file.colls coll _) c = some docs
          rw [assocGet_assocSet, if_neg hcc]
          exact hdocs

theorem runUpdates_preserves (calls : List UpdateCall) (s : EngineState) (c : String)
    (docs : List Document) (hdocs : getColl s.file c = some docs) :
    ∃ docs', getColl (runUpdates calls s).file c = some docs' ∧
      List.Forall₂ (fun d d' => getField d' "_id" = getField d "_id" ∧
        ((∀ call ∈ calls, getField call.patch "_createdAt" = none) →
          getField d' "_createdAt" = getField d "_createdAt")) docs docs' := by
  induction calls generalizing s docs with
  | nil =>
    exact ⟨docs, hdocs, List.forall₂_same.mpr (fun d _ => ⟨rfl, fun _ => rfl⟩)⟩
  | cons call rest ih =>
    obtain ⟨docs₁, hd₁, hrel₁⟩ :=
      update_call_preserves call.coll call.query call.patch call.opts call.ts s c docs hdocs
    obtain ⟨docs', hd', hrel'⟩ :=
      ih (update call.coll call.query call.patch call.opts call.ts s).2 docs₁ hd₁
    refine ⟨docs', hd', forall₂_compose hrel₁ hrel' ?_⟩
    intro a b d hab hbd
    have hid : getField b "_id" = getField a "_id" := by
      rcases hab with rfl | rfl
      · rfl
      · exact getField_applyPatch_id a call.patch call.ts
    refine ⟨hbd.1.trans hid, fun hall => ?_⟩
    have hcall := hall call (List.mem_cons_self call rest)
    have hca : getField b "_createdAt" = getField a "_createdAt" := by
      rcases hab with rfl | rfl
      · rfl
      · exact getField_applyPatch_createdAt a call.patch call.ts hcall
    exact (hbd.2 (fun x hx => hall x (List.mem_cons_of_mem call hx))).trans hca

/-- The count removed by `delete` equals the number of matching documents. -/
theorem length_sub_filter_not (docs : List Document) (p : Document → Bool) :
    docs.length - (docs.filter (fun d => !p d)).length = docs.countP p := by
  induction docs with
  | nil => rfl
  | cons d rest ih =>
    have hle : (rest.filter (fun d => !p d)).length ≤ rest.length :=
      List.length_filter_le _ _
    cases hd : p d with
    | true =>
      simp only [List.filter_cons, hd, Bool.not_true, Bool.false_eq_true, if_false,
        List.length_cons, List.countP_cons, hd, if_pos]
      omega
    | false =>
      simp only [List.filter_cons, hd, Bool.not_false, if_true, List.length_cons,
        List.countP_cons, hd, Bool.false_eq_true, if_false]
      omega

/-!
## Claims
-/

/-- C1: the spec requires the mutual-exclusion gate to serialize entire
read-modify-write cycles so that two concurrent single-document inserts
into the same collection leave exactly 2 documents.  The code holds the
mutex only inside `_readDatabase` and inside `_writeDatabase` separately,
so the schedule A-read, B-read, A-write, B-write is legal; both calls
finish, and the final collection holds exactly the one document written by
B from its stale snapshot — A's insert is lost.  The second conjunct shows
the fully serialized schedule of the same two inserts from the same
initial file yields 2 documents, isolating the interleaving as the cause. -/
theorem insert_lost_update :
    (runSchedule
        [⟨"c", [("x", .vInt 1)], "idA", "t"⟩, ⟨"c", [("x", .vInt 2)], "idB", "t"⟩]
        ⟨[("c", [])]⟩ [.ready, .ready] [0, 1, 0, 1]
      = (⟨[("c", [withMetadata [("x", .vInt 2)] "idB" "t"])]⟩,
         [.finished, .finished])) ∧
    ((runSchedule
        [⟨"c", [("x", .vInt 1)], "idA", "t"⟩, ⟨"c", [("x", .vInt 2)], "idB", "t"⟩]
        ⟨[("c", [])]⟩ [.ready, .ready] [0, 0, 1, 1]).1.colls.map
          (fun p => (p.1, p.2.length))
      = [("c", 2)]) :=
  ⟨rfl, rfl⟩

/-- C2 counterexample: one successful `update` call whose patch names
`_createdAt` overwrites it.  The call reports success (`matchedCount =
modifiedCount = 1`), and the stored document's `_createdAt` changes from
"t0" to "evil" — `update` restores `_id` but not `_createdAt`
(src/src/index.js lines 192–197), so the claim fails for patches naming
`_createdAt`. -/
theorem update_createdAt_counterexample :
    ((update "c" [] [("_createdAt", .vStr "evil")] {} "t1"
        ⟨true, ⟨[("c", [[("_id", .vStr "i"), ("_createdAt", .vStr "t0"),
                         ("_updatedAt", .vStr "t0")]])]⟩⟩).1
      = .ok ⟨1, 1⟩) ∧
    ((getColl (update "c" [] [("_createdAt", .vStr "evil")] {} "t1"
        ⟨true, ⟨[("c", [[("_id", .vStr "i"), ("_createdAt", .vStr "t0"),
                         ("_updatedAt", .vStr "t0")]])]⟩⟩).2.file "c").map
        (fun ds => ds.map (fun d => getField d "_createdAt"))
      = some [some (.vStr "evil")]) :=
  ⟨rfl, rfl⟩

/-- C2 (amended): for every document of any collection, after any number
of `update` calls (successful or not, with any filters and options),
`_id` is unchanged from its value before the calls; `_createdAt` is
likewise unchanged provided no patch names `_createdAt`. -/
theorem update_identity_immutable (calls : List UpdateCall) (s : EngineState)
    (c : String) (docs : List Document) (hdocs : getColl s.file c = some docs) :
    ∃ docs', getColl (runUpdates calls s).file c = some docs' ∧
      List.Forall₂ (fun d d' => getField d' "_id" = getField d "_id") docs docs' ∧
      ((∀ call ∈ calls, getField call.patch "_createdAt" = none) →
        List.Forall₂ (fun d d' => getField d' "_createdAt" = getField d "_createdAt")
          docs docs') := by
  obtain ⟨docs', hd, hrel⟩ := runUpdates_preserves calls s c docs hdocs
  refine ⟨docs', hd, ?_, ?_⟩
  · exact List.Forall₂.imp (fun a b h => h.1) hrel
  · exact fun hall => List.Forall₂.imp (fun a b h => h.2 hall) hrel

/-- C2 witness: the amended theorem applied to a one-document collection
and one update call whose patch does not name `_createdAt`. -/
theorem update_identity_immutable_witness :
    ∃ docs', getColl (runUpdates [⟨"c", [], [("x", Value.vInt 9)], ⟨false, false⟩, "t1"⟩]
        ⟨true, ⟨[("c", [[("_id", Value.vStr "i"), ("_createdAt", Value.vStr "t0")]])]⟩⟩).file
        "c" = some docs' ∧
      List.Forall₂ (fun d d' => getField d' "_id" = getField d "_id")
        [[("_id", Value.vStr "i"), ("_createdAt", Value.vStr "t0")]] docs' ∧
      ((∀ call ∈ [(⟨"c", [], [("x", Value.vInt 9)], ⟨false, false⟩, "t1"⟩ : UpdateCall)],
          getField call.patch "_createdAt" = none) →
        List.Forall₂ (fun d d' => getField d' "_createdAt" = getField d "_createdAt")
          [[("_id", Value.vStr "i"), ("_createdAt", Value.vStr "t0")]] docs') :=
  update_identity_immutable [⟨"c", [], [("x", Value.vInt 9)], ⟨false, false⟩, "t1"⟩]
    ⟨true, ⟨[("c", [[("_id", Value.vStr "i"), ("_createdAt", Value.vStr "t0")]])]⟩⟩
    "c" [[("_id", Value.vStr "i"), ("_createdAt", Value.vStr "t0")]] rfl

/-- C3 counterexample: a filter whose expected value is a structured
(nested mapping) value equal — same type, same shape, same values — to
the document's field does not match: `doc[key] !== value` is reference
equality on objects, and a freshly parsed document field is never the
same object as the caller's query value.  The claim's "strictly equal
(same type and value)" reading predicts `true` here. -/
theorem matcher_structured_counterexample :
    getField [("a", .vObj [("b", .vInt 1)])] "a" = some (.vObj [("b", .vInt 1)]) ∧
    matchesQuery [("a", .vObj [("b", .vInt 1)])] [("a", .vObj [("b", .vInt 1)])] = false :=
  ⟨rfl, rfl⟩

/-- C3 (amended): the matcher returns true iff the filter is empty or
every `(field, expectedValue)` pair satisfies: the document's field holds
exactly the expected value and the expected value is a scalar
(null/boolean/number/string) — compared strictly, with no type coercion.
A structured (nested mapping) expected value matches nothing (object
identity against a freshly parsed field), and is never evaluated as a
query operator. -/
theorem matchesQuery_spec (doc query : Document) :
    matchesQuery doc query = true ↔
      (query = [] ∨
        ∀ p ∈ query, getField doc p.1 = some p.2 ∧ p.2.isScalar = true) := by
  rw [matchesQuery_iff]
  constructor
  · exact fun h => Or.inr h
  · rintro (rfl | h)
    · intro p hp
      cases hp
    · exact h

/-- C5 counterexample: sorting `[{a: 1}, {}]` ascending by `a` leaves the
document lacking `a` last — under the claim ("a document on which a sort
field is absent compares as universally smallest") it would have to come
first.  An absent field makes both `a[key] < b[key]` and `a[key] > b[key]`
false (`undefined` converts to `NaN`), so the comparator ties and the
stable sort keeps original order. -/
theorem sort_absent_counterexample :
    sortDocuments [[("a", .vInt 1)], []] [("a", 1)] = [[("a", .vInt 1)], []] ∧
    [[("a", Value.vInt 1)], ([] : Document)] ≠ [([] : Document), [("a", Value.vInt 1)]] :=
  ⟨rfl, by simp⟩

/-- C5 (amended): `find` with `options.sort` returns the matching
documents reordered by the stable comparator sort over the composite key:
the sort specification's fields are consulted in the order given; a
strict `<` on the field decides per the direction (`1` = ascending,
anything else descending), a strict `>` the other way, and otherwise —
including whenever the field is absent on either document, which never
decides a comparison — the tie falls through to the next field, and
exhausted fields leave a tie resolved by the stable sort's original
order.  Comparison is `jsLt`, the natural (JavaScript relational)
ordering of the values. -/
theorem sortDocuments_spec (coll : String) (query : Document)
    (docs : List Document) (s : EngineState) (hinit : s.initialized = true)
    (hcoll : getColl s.file coll = some docs) :
    (∀ sortSpec : List (String × Int),
      (find coll query ⟨some sortSpec, none, none⟩ s).1 =
        .ok (stableSortBy (compareDocs sortSpec)
              (docs.filter (fun d => matchesQuery d query)))) ∧
    (∀ a b : Document, compareDocs [] a b = 0) ∧
    (∀ (k : String) (dir : Int) (rest : List (String × Int)) (a b : Document),
      getField a k = none ∨ getField b k = none →
      compareDocs ((k, dir) :: rest) a b = compareDocs rest a b) ∧
    (∀ (k : String) (dir : Int) (rest : List (String × Int)) (a b : Document),
      jsLt (getField a k) (getField b k) = true →
      compareDocs ((k, dir) :: rest) a b = if dir = 1 then -1 else 1) ∧
    (∀ (k : String) (dir : Int) (rest : List (String × Int)) (a b : Document),
      jsLt (getField a k) (getField b k) = false →
      jsLt (getField b k) (getField a k) = true →
      compareDocs ((k, dir) :: rest) a b = if dir = 1 then 1 else -1) ∧
    (∀ (k : String) (dir : Int) (rest : List (String × Int)) (a b : Document),
      jsLt (getField a k) (getField b k) = false →
      jsLt (getField b k) (getField a k) = false →
      compareDocs ((k, dir) :: rest) a b = compareDocs rest a b) := by
  refine ⟨?_, fun a b => rfl, compareDocs_absent, ?_, ?_, ?_⟩
  · intro sortSpec
    rw [find_eq coll query _ docs s hinit hcoll]
    rfl
  · intro k dir rest a b h
    simp only [compareDocs, h, if_true]
  · intro k dir rest a b h1 h2
    simp only [compareDocs, h1, h2, Bool.false_eq_true, if_false, if_true]
  · intro k dir rest a b h1 h2
    simp only [compareDocs, h1, h2, Bool.false_eq_true, if_false]

/-- C5 witness: the amended theorem applied to a concrete state —
`find` sorting `[{a: 1}, {}]` ascending by `a` keeps the original order
(the absent field ties, and the stable sort preserves position), and the
comparator on such a pair is 0. -/
theorem sortDocuments_spec_witness :
    ((find "c" [] ⟨some [("a", 1)], none, none⟩
        ⟨true, ⟨[("c", [[("a", Value.vInt 1)], []])]⟩⟩).1
      = .ok [[("a", Value.vInt 1)], []]) ∧
    compareDocs [("a", 1)] [] [("a", Value.vInt 5)] = 0 := by
  have h := sortDocuments_spec "c" [] [[("a", Value.vInt 1)], []]
    ⟨true, ⟨[("c", [[("a", Value.vInt 1)], []])]⟩⟩ rfl rfl
  exact ⟨(h.1 [("a", 1)]).trans rfl,
    (h.2.2.1 "a" 1 [] [] [("a", Value.vInt 5)] (Or.inl rfl)).trans
      (h.2.1 [] [("a", Value.vInt 5)])⟩

/-- C6: update scoping and merge semantics.  With `multi` false and at
least one match, exactly the first match in collection order is rewritten
(every earlier document is a non-match and every other document — matching
or not — is returned untouched) and the call reports `matchedCount =
modifiedCount = 1`.  With `multi` true, every match is rewritten and the
counts both equal the number of matches.  Each processed match is the
patch merged onto the document (patch fields overwrite; unnamed fields
survive — stated for patches with unique keys, as JavaScript objects
have), with the original `_id` forcibly restored and `_updatedAt` set to
the one timestamp captured for the call. -/
theorem update_scoping (coll : String) (query patch : Document) (ts : String)
    (s : EngineState) (docs : List Document) (upsert : Bool)
    (hinit : s.initialized = true) (hcoll : getColl s.file coll = some docs) :
    (∀ pre d post, docs = pre ++ d :: post →
      (∀ x ∈ pre, matchesQuery x query = false) → matchesQuery d query = true →
      update coll query patch ⟨false, upsert⟩ ts s =
        (.ok ⟨1, 1⟩,
         { s with
           file := setColl s.file coll (pre ++ applyPatch d patch ts :: post) })) ∧
    ((∃ d ∈ docs, matchesQuery d query = true) →
      update coll query patch ⟨true, upsert⟩ ts s =
        (.ok ⟨docs.countP (fun d => matchesQuery d query),
              docs.countP (fun d => matchesQuery d query)⟩,
         { s with
           file := setColl s.file coll
             (docs.map (fun d =>
               if matchesQuery d query then applyPatch d patch ts else d)) })) ∧
    (∀ d, getField (applyPatch d patch ts) "_id" = getField d "_id") ∧
    (∀ d, getField (applyPatch d patch ts) "_updatedAt" = some (.vStr ts)) ∧
    ((patch.map Prod.fst).Nodup → ∀ d k, k ≠ "_id" → k ≠ "_updatedAt" →
      getField (applyPatch d patch ts) k =
        match getField patch k with
        | some v => some v
        | none => getField d k) := by
  refine ⟨?_, ?_, fun d => getField_applyPatch_id d patch ts,
    fun d => getField_applyPatch_updatedAt d patch ts, ?_⟩
  · intro pre d post hsplit hpre hd
    subst hsplit
    rw [update_eq coll query patch ⟨false, upsert⟩ ts (pre ++ d :: post) s hinit hcoll]
    simp only [updateDocsAux_first query patch ts pre d post hpre hd]
    rfl
  · intro hex
    obtain ⟨d, hdmem, hdmatch⟩ := hex
    rw [update_eq coll query patch ⟨true, upsert⟩ ts docs s hinit hcoll]
    simp only [updateDocsAux_multi query patch ts docs 0, Nat.zero_add]
    have hpos : 0 < docs.countP (fun d => matchesQuery d query) :=
      List.countP_pos_iff.mpr ⟨d, hdmem, hdmatch⟩
    have hcp : docs.countP (fun d => matchesQuery d query) ≠ 0 := by omega
    have hb : (docs.countP (fun d => matchesQuery d query) == 0) = false := by
      simpa using hcp
    simp only [hb, Bool.false_and, Bool.false_eq_true, if_false]
  · intro hnd d k hkid hkup
    rw [getField_applyPatch_other d patch ts k hkid hkup]
    cases hk : getField patch k with
    | some v => exact getField_objMerge_of_some d patch k v hnd hk
    | none => exact getField_objMerge_of_none d patch k hk

/-- C6 witness: three documents all matching `{t: 1}`; with `multi` false
only the first is rewritten and the counts are 1; with `multi` true all
three are rewritten and the counts are 3. -/
theorem update_scoping_witness :
    (update "c" [("t", Value.vInt 1)] [("x", Value.vInt 9)] ⟨false, false⟩ "u"
        ⟨true, ⟨[("c", [[("_id", Value.vStr "a"), ("t", Value.vInt 1)],
                        [("_id", Value.vStr "b"), ("t", Value.vInt 1)],
                        [("_id", Value.vStr "d"), ("t", Value.vInt 1)]])]⟩⟩
      = (.ok ⟨1, 1⟩, ⟨true, ⟨[("c",
          [[("_id", Value.vStr "a"), ("t", Value.vInt 1), ("x", Value.vInt 9),
            ("_updatedAt", Value.vStr "u")],
           [("_id", Value.vStr "b"), ("t", Value.vInt 1)],
           [("_id", Value.vStr "d"), ("t", Value.vInt 1)]])]⟩⟩)) ∧
    (update "c" [("t", Value.vInt 1)] [("x", Value.vInt 9)] ⟨true, false⟩ "u"
        ⟨true, ⟨[("c", [[("_id", Value.vStr "a"), ("t", Value.vInt 1)],
                        [("_id", Value.vStr "b"), ("t", Value.vInt 1)],
                        [("_id", Value.vStr "d"), ("t", Value.vInt 1)]])]⟩⟩
      = (.ok ⟨3, 3⟩, ⟨true, ⟨[("c",
          [[("_id", Value.vStr "a"), ("t", Value.vInt 1), ("x", Value.vInt 9),
            ("_updatedAt", Value.vStr "u")],
           [("_id", Value.vStr "b"), ("t", Value.vInt 1), ("x", Value.vInt 9),
            ("_updatedAt", Value.vStr "u")],
           [("_id", Value.vStr "d"), ("t", Value.vInt 1), ("x", Value.vInt 9),
            ("_updatedAt", Value.vStr "u")]])]⟩⟩)) := by
  have h := update_scoping "c" [("t", Value.vInt 1)] [("x", Value.vInt 9)] "u"
    ⟨true, ⟨[("c", [[("_id", Value.vStr "a"), ("t", Value.vInt 1)],
                    [("_id", Value.vStr "b"), ("t", Value.vInt 1)],
                    [("_id", Value.vStr "d"), ("t", Value.vInt 1)]])]⟩⟩
    [[("_id", Value.vStr "a"), ("t", Value.vInt 1)],
     [("_id", Value.vStr "b"), ("t", Value.vInt 1)],
     [("_id", Value.vStr "d"), ("t", Value.vInt 1)]] false rfl rfl
  refine ⟨?_, ?_⟩
  · exact h.1 [] [("_id", Value.vStr "a"), ("t", Value.vInt 1)]
      [[("_id", Value.vStr "b"), ("t", Value.vInt 1)],
       [("_id", Value.vStr "d"), ("t", Value.vInt 1)]] rfl
      (fun x hx => absurd hx (List.not_mem_nil x)) rfl
  · exact h.2.1 ⟨[("_id", Value.vStr "a"), ("t", Value.vInt 1)],
      List.mem_cons_self _ _, rfl⟩

/-- C7: `delete` removes every matching document regardless of the `multi`
option (which the body never reads): the surviving collection is exactly
the non-matching documents in order, the reported count is the number of
matches, and a zero count fails with `DocumentNotFound`, leaving the
state untouched. -/
theorem delete_spec (coll : String) (query : Document) (opts : DeleteOptions)
    (s : EngineState) (docs : List Document)
    (hinit : s.initialized = true) (hcoll : getColl s.file coll = some docs) :
    (docs.countP (fun d => matchesQuery d query) = 0 →
      delete coll query opts s = (.error .documentNotFound, s)) ∧
    (docs.countP (fun d => matchesQuery d query) ≠ 0 →
      delete coll query opts s =
        (.ok ⟨docs.countP (fun d => matchesQuery d query)⟩,
         { s with file :=
            setColl s.file coll (docs.filter (fun d => !matchesQuery d query)) })) := by
  have hcount : docs.length - (docs.filter (fun d => !matchesQuery d query)).length
      = docs.countP (fun d => matchesQuery d query) :=
    length_sub_filter_not docs (fun d => matchesQuery d query)
  constructor
  · intro h0
    rw [delete_eq coll query opts docs s hinit hcoll]
    simp only [hcount, h0]
    rfl
  · intro hne
    rw [delete_eq coll query opts docs s hinit hcoll]
    have hb : (docs.countP (fun d => matchesQuery d query) == 0) = false := by
      simpa using hne
    simp only [hcount, hb, Bool.false_eq_true, if_false]

/-- C7 witness: of three documents, the two matching `{t: 1}` are both
removed though `multi` is false, the reported count is 2, and a filter
matching nothing fails with `DocumentNotFound`. -/
theorem delete_spec_witness :
    (delete "c" [("t", Value.vInt 1)] ⟨false⟩
        ⟨true, ⟨[("c", [[("t", Value.vInt 1), ("n", Value.vInt 0)],
                        [("t", Value.vInt 2)],
                        [("t", Value.vInt 1), ("n", Value.vInt 1)]])]⟩⟩
      = (.ok ⟨2⟩, ⟨true, ⟨[("c", [[("t", Value.vInt 2)]])]⟩⟩)) ∧
    (delete "c" [("z", Value.vInt 9)] ⟨false⟩
        ⟨true, ⟨[("c", [[("t", Value.vInt 1), ("n", Value.vInt 0)],
                        [("t", Value.vInt 2)],
                        [("t", Value.vInt 1), ("n", Value.vInt 1)]])]⟩⟩
      = (.error .documentNotFound,
         ⟨true, ⟨[("c", [[("t", Value.vInt 1), ("n", Value.vInt 0)],
                         [("t", Value.vInt 2)],
                         [("t", Value.vInt 1), ("n", Value.vInt 1)]])]⟩⟩)) := by
  have h1 := delete_spec "c" [("t", Value.vInt 1)] ⟨false⟩
    ⟨true, ⟨[("c", [[("t", Value.vInt 1), ("n", Value.vInt 0)],
                    [("t", Value.vInt 2)],
                    [("t", Value.vInt 1), ("n", Value.vInt 1)]])]⟩⟩
    [[("t", Value.vInt 1), ("n", Value.vInt 0)],
     [("t", Value.vInt 2)],
     [("t", Value.vInt 1), ("n", Value.vInt 1)]] rfl rfl
  have h2 := delete_spec "c" [("z", Value.vInt 9)] ⟨false⟩
    ⟨true, ⟨[("c", [[("t", Value.vInt 1), ("n", Value.vInt 0)],
                    [("t", Value.vInt 2)],
                    [("t", Value.vInt 1), ("n", Value.vInt 1)]])]⟩⟩
    [[("t", Value.vInt 1), ("n", Value.vInt 0)],
     [("t", Value.vInt 2)],
     [("t", Value.vInt 1), ("n", Value.vInt 1)]] rfl rfl
  exact ⟨h1.2 (by decide), h2.1 (by decide)⟩

/-- C8: on an existing collection with zero matches, `update` without
`upsert` and `delete` both fail with `DocumentNotFound` and return the
state unchanged (the error is raised before any write); `update` with
`upsert` set succeeds with `matchedCount = modifiedCount = 0` and creates
no document — every collection's content is exactly what it was. -/
theorem zero_match_not_found (coll : String) (query patch : Document) (ts : String)
    (multi : Bool) (s : EngineState) (docs : List Document)
    (hinit : s.initialized = true) (hcoll : getColl s.file coll = some docs)
    (hnone : ∀ d ∈ docs, matchesQuery d query = false) :
    (update coll query patch ⟨multi, false⟩ ts s = (.error .documentNotFound, s)) ∧
    ((update coll query patch ⟨multi, true⟩ ts s).1 = .ok ⟨0, 0⟩ ∧
      ∀ c', getColl (update coll query patch ⟨multi, true⟩ ts s).2.file c'
          = getColl s.file c') ∧
    (delete coll query ⟨multi⟩ s = (.error .documentNotFound, s)) := by
  refine ⟨?_, ?_, ?_⟩
  · rw [update_eq coll query patch ⟨multi, false⟩ ts docs s hinit hcoll]
    simp only [updateDocsAux_nomatch query patch multi ts docs 0 hnone]
    rfl
  · have hu : update coll query patch ⟨multi, true⟩ ts s =
        (.ok ⟨0, 0⟩, { s with file := setColl s.file coll docs }) := by
      rw [update_eq coll query patch ⟨multi, true⟩ ts docs s hinit hcoll]
      simp only [updateDocsAux_nomatch query patch multi ts docs 0 hnone]
      rfl
    refine ⟨by rw [hu], fun c' => ?_⟩
    rw [hu]
    show assocGet (assocSet s.file.colls coll docs) c' = assocGet s.file.colls c'
    rw [assocGet_assocSet]
    by_cases h : c' = coll
    · subst h
      rw [if_pos rfl]
      exact hcoll.symm
    · rw [if_neg h]
  · have hkept : docs.filter (fun d => !matchesQuery d query) = docs :=
      List.filter_eq_self.mpr (fun d hd => by rw [hnone d hd]; rfl)
    rw [delete_eq coll query ⟨multi⟩ docs s hinit hcoll]
    simp only [hkept, Nat.sub_self]
    rfl

/-- C8 witness: a one-document collection and a filter matching nothing —
`update` fails with `DocumentNotFound`, `update` with `upsert` succeeds
reporting 0, and `delete` fails with `DocumentNotFound`, all leaving the
state as it was. -/
theorem zero_match_not_found_witness :
    (update "c" [("z", Value.vInt 9)] [("x", Value.vInt 0)] ⟨false, false⟩ "u"
        ⟨true, ⟨[("c", [[("t", Value.vInt 1)]])]⟩⟩
      = (.error .documentNotFound, ⟨true, ⟨[("c", [[("t", Value.vInt 1)]])]⟩⟩)) ∧
    ((update "c" [("z", Value.vInt 9)] [("x", Value.vInt 0)] ⟨false, true⟩ "u"
        ⟨true, ⟨[("c", [[("t", Value.vInt 1)]])]⟩⟩).1 = .ok ⟨0, 0⟩) ∧
    (delete "c" [("z", Value.vInt 9)] ⟨false⟩
        ⟨true, ⟨[("c", [[("t", Value.vInt 1)]])]⟩⟩
      = (.error .documentNotFound, ⟨true, ⟨[("c", [[("t", Value.vInt 1)]])]⟩⟩)) := by
  have h := zero_match_not_found "c" [("z", Value.vInt 9)] [("x", Value.vInt 0)] "u"
    false ⟨true, ⟨[("c", [[("t", Value.vInt 1)]])]⟩⟩ [[("t", Value.vInt 1)]]
    rfl rfl (by decide)
  exact ⟨h.1, h.2.1.1, h.2.2⟩

/-- C9 counterexample: two operations invoked on an uninitialized engine
fail with `InvalidInput`, not `NotInitialized`: `insert` with an empty
document list and `createCollection` with a blank name run their argument
checks before `_readDatabase`'s initialization guard. -/
theorem lifecycle_guard_counterexample :
    (insert "c" [] (fun _ => "i") "t" ⟨false, ⟨[]⟩⟩
      = (.error .invalidInput, ⟨false, ⟨[]⟩⟩)) ∧
    (createCollection "" ⟨false, ⟨[]⟩⟩ = (.error .invalidInput, ⟨false, ⟨[]⟩⟩)) ∧
    DBError.invalidInput ≠ DBError.notInitialized :=
  ⟨rfl, rfl, by decide⟩

/-- C9 (amended): every document or collection operation invoked while the
engine is not in the initialized state fails with `NotInitialized` — for
every argument value, except that `createCollection` with a name that is
blank after trimming and `insert` with an empty document list fail with
`InvalidInput` even then, their argument checks preceding the guard.  In
every case the state is returned unchanged. -/
theorem not_initialized_guard (s : EngineState) (h : s.initialized = false) :
    (∀ name, nameBlank name = false →
      createCollection name s = (.error .notInitialized, s)) ∧
    (∀ name, dropCollection name s = (.error .notInitialized, s)) ∧
    (∀ coll docs gen ts, docs ≠ [] →
      insert coll docs gen ts s = (.error .notInitialized, s)) ∧
    (∀ coll query opts, find coll query opts s = (.error .notInitialized, s)) ∧
    (∀ coll query, findOne coll query s = (.error .notInitialized, s)) ∧
    (∀ coll query, count coll query s = (.error .notInitialized, s)) ∧
    (∀ coll query patch opts ts,
      update coll query patch opts ts s = (.error .notInitialized, s)) ∧
    (∀ coll query opts, delete coll query opts s = (.error .notInitialized, s)) ∧
    (getStats s = (.error .notInitialized, s)) ∧
    (∀ name, nameBlank name = true →
      createCollection name s = (.error .invalidInput, s)) ∧
    (∀ coll gen ts, insert coll [] gen ts s = (.error .invalidInput, s)) := by
  refine ⟨fun name hn => createCollection_not_initialized name s h hn,
    fun name => dropCollection_not_initialized name s h,
    fun coll docs gen ts hne => insert_not_initialized coll docs gen ts s h hne,
    fun coll query opts => find_not_initialized coll query opts s h,
    fun coll query => findOne_not_initialized coll query s h,
    fun coll query => count_not_initialized coll query s h,
    fun coll query patch opts ts => update_not_initialized coll query patch opts ts s h,
    fun coll query opts => delete_not_initialized coll query opts s h,
    getStats_not_initialized s h,
    fun name hn => by simp [createCollection, hn],
    fun coll gen ts => rfl⟩

/-- C9 witness: the amended theorem applied to a closed uninitialized
state: `find` and `createCollection` with a valid name fail with
`NotInitialized`, while `createCollection` with the empty name — or with
a name made of JavaScript whitespace `trim` removes, such as a vertical
tab — falls into the `InvalidInput` exception. -/
theorem not_initialized_guard_witness :
    (find "c" [] {} ⟨false, ⟨[]⟩⟩ = (.error .notInitialized, ⟨false, ⟨[]⟩⟩)) ∧
    (createCollection "x" ⟨false, ⟨[]⟩⟩ = (.error .notInitialized, ⟨false, ⟨[]⟩⟩)) ∧
    (getStats ⟨false, ⟨[]⟩⟩ = (.error .notInitialized, ⟨false, ⟨[]⟩⟩)) ∧
    (createCollection "" ⟨false, ⟨[]⟩⟩ = (.error .invalidInput, ⟨false, ⟨[]⟩⟩)) ∧
    (createCollection "\x0B" ⟨false, ⟨[]⟩⟩ = (.error .invalidInput, ⟨false, ⟨[]⟩⟩)) := by
  have h := not_initialized_guard ⟨false, ⟨[]⟩⟩ rfl
  exact ⟨h.2.2.2.1 "c" [] {}, h.1 "x" rfl, h.2.2.2.2.2.2.2.2.1,
    h.2.2.2.2.2.2.2.2.2.1 "" rfl, h.2.2.2.2.2.2.2.2.2.1 "\x0B" rfl⟩

/-- C10: the read-only operations `find`, `findOne`, `count` and
`getStats` never reach the write step: for every engine state
(initialized or not) and all arguments, the state — in particular the
persisted file content — after the call, whether it succeeds or fails, is
the state before it. -/
theorem readonly_frame :
    ∀ (s : EngineState) (coll : String) (query : Document) (opts : FindOptions),
      (find coll query opts s).2 = s ∧ (findOne coll query s).2 = s ∧
      (count coll query s).2 = s ∧ (getStats s).2 = s :=
  fun s coll query opts =>
    ⟨find_snd coll query opts s, findOne_snd coll query s,
     count_snd coll query s, getStats_snd s⟩

end VernixDB
